/-
Verification of the networking-resilience and caching core of an
Obsidian task-manager plugin: sliding-window rate limiter, retrying
request engine with timeout and cancellation, cancellation token, and a
TTL + LRU + versioned read-through cache.

The definitions below are a shallow embedding of `src/api-client.ts` and
`src/cache.ts`.  JavaScript numbers (timestamps in milliseconds, delays,
`Math.random()` jitter) are modelled as rationals; `Date.now()` is made
explicit by threading a `now`/clock argument; the asynchronous retry
loop is modelled as a fuel-indexed recursive function over an explicit
virtual clock, with the transport layer, the jitter draws and the
cancellation instant supplied as oracles.
-/
import Mathlib

/-! ## Rate limiter (`src/api-client.ts`, class `RateLimiter`) -/

/-- State of the sliding-window rate limiter: the recorded request
timestamps together with its configuration. -/
structure RateLimiterState where
  requests : List ℚ
  maxRequests : ℕ
  windowMs : ℚ
deriving DecidableEq

/-- `cleanup()`: drop every timestamp that is not strictly newer than
`now - windowMs` (the source filters with `timestamp > cutoff`). -/
def RateLimiterState.cleanup (s : RateLimiterState) (now : ℚ) : RateLimiterState :=
  { s with requests := s.requests.filter (fun t => now - s.windowMs < t) }

/-- `canMakeRequest()`: prune, then admit iff strictly fewer than
`maxRequests` timestamps remain.  Returns the answer together with the
mutated (pruned) state. -/
def RateLimiterState.canMakeRequest (s : RateLimiterState) (now : ℚ) :
    Bool × RateLimiterState :=
  let s2 := s.cleanup now
  (decide (s2.requests.length < s2.maxRequests), s2)

/-- `recordRequest()`: append the current timestamp. -/
def RateLimiterState.recordRequest (s : RateLimiterState) (now : ℚ) : RateLimiterState :=
  { s with requests := s.requests ++ [now] }

/-- `getWaitTime()`: prune; `0` when under capacity, otherwise the time
until the oldest retained timestamp exits the window
(`oldestRequest + windowMs - now`).  The `none` branch is unreachable
whenever `maxRequests ≥ 1` (at capacity the pruned list is nonempty). -/
def RateLimiterState.getWaitTime (s : RateLimiterState) (now : ℚ) : ℚ :=
  let s2 := s.cleanup now
  if s2.requests.length < s2.maxRequests then 0
  else
    match s2.requests.head? with
    | some oldestRequest => oldestRequest + s2.windowMs - now
    | none => 0

/-- `setRateLimitConfig(maxRequests, windowMs)`:
`Object.assign(rateLimiter, new RateLimiter(maxRequests, windowMs))`
overwrites all three own fields of the singleton, in particular
replacing the recorded-request list by the fresh empty one. -/
def setRateLimitConfig (_s : RateLimiterState) (maxRequests : ℕ) (windowMs : ℚ) :
    RateLimiterState :=
  { requests := [], maxRequests := maxRequests, windowMs := windowMs }

example :
    (RateLimiterState.canMakeRequest ⟨[0, 0, 0], 3, 60000⟩ 1).1 = false := by
  simp [RateLimiterState.canMakeRequest, RateLimiterState.cleanup]

example :
    (RateLimiterState.canMakeRequest ⟨[0, 0, 0], 3, 60000⟩ 60001).1 = true := by
  norm_num [RateLimiterState.canMakeRequest, RateLimiterState.cleanup, List.filter]

example :
    RateLimiterState.getWaitTime ⟨[0, 0, 0], 3, 60000⟩ 1 = 59999 := by
  norm_num [RateLimiterState.getWaitTime, RateLimiterState.cleanup, List.filter]

/-! ## Request engine helpers (`src/api-client.ts`) -/

/-- `calculateBackoffDelay(retryCount, baseDelayMs)`:
`min(baseDelayMs * 2^retryCount + jitter, 30000)`, where `jitter` stands
for the `Math.random() * 1000` draw of that call. -/
def calculateBackoffDelay (retryCount : ℕ) (baseDelayMs : ℚ) (jitter : ℚ) : ℚ :=
  min (baseDelayMs * 2 ^ retryCount + jitter) 30000

/-- `isRetryableError(statusCode)`: `429` or any `5xx`. -/
def isRetryableError (statusCode : ℕ) : Bool :=
  statusCode == 429 || (500 ≤ statusCode && statusCode < 600)

/-- `getErrorWithRecovery(statusCode, message)`. -/
def getErrorWithRecovery (statusCode : ℕ) (message : String) : String :=
  if statusCode = 401 then
    "Authentication failed: " ++ message ++ ". Please check your API key in settings."
  else if statusCode = 403 then
    "Access denied: " ++ message ++ ". Your API key may lack required permissions."
  else if statusCode = 429 then
    "Rate limited: " ++ message ++ ". Please wait a moment before trying again."
  else if statusCode = 500 ∨ statusCode = 502 ∨ statusCode = 503 ∨ statusCode = 504 then
    "Server error: " ++ message ++ ". The API is temporarily unavailable. Please try again later."
  else message

/-- The error string built when the rate limiter denies admission:
`Rate limited. Please wait X seconds.` with `X = Math.ceil(waitTime / 1000)`. -/
def rateLimitedMessage (waitTime : ℚ) : String :=
  "Rate limited. Please wait " ++ toString (Int.ceil (waitTime / 1000)) ++ " seconds."

/-! ## Request engine (`src/api-client.ts`, `makeApiRequest`)

The numeric and control fields of `ApiRequestConfig` are modelled; `url`,
`method`, `headers` and `body` are opaque to the control flow and are
omitted.  The transport is an oracle mapping the attempt index
(`retryCount` at the time of the attempt) to its outcome; an HTTP
response carries its status, an opaque payload `body` standing for
`response.json`, the string `errMsg` standing for the value
`extractErrorMessage` computes from the response (its JSON parsing is
not modelled), and the attempt duration `dur` (which, for a delivered
response, is below the per-attempt timeout, or the timeout promise would
have won the race instead — that case is the `timedOut` outcome). -/

/-- Numeric/control fields of `ApiRequestConfig`, with the source's
defaults (`timeout = 30000`, `maxRetries = 3`, `retryDelayMs = 1000`). -/
structure ApiRequestConfig where
  timeout : ℚ := 30000
  maxRetries : ℕ := 3
  retryDelayMs : ℚ := 1000
deriving DecidableEq

/-- The `ApiResponse` record returned by `makeApiRequest` (the payload
`data` is the opaque `response.json` string or `null`). -/
structure ApiResponse where
  success : Bool
  data : Option String
  error : Option String
  statusCode : ℕ
  retryCount : ℕ
  cancelled : Bool
deriving DecidableEq

/-- Outcome of one attempt's `Promise.race([requestPromise, timeoutPromise])`. -/
inductive AttemptOutcome where
  | httpResponse (status : ℕ) (body : String) (errMsg : String) (dur : ℚ)
  | timedOut
deriving DecidableEq

/-- `cancellationToken?.isCancelled` observed at virtual time `τ`: the
token (if any) was cancelled at instant `t` and `t ≤ τ`. -/
def cancelledAt (cancelAt : Option ℚ) (τ : ℚ) : Bool :=
  match cancelAt with
  | some t => decide (t ≤ τ)
  | none => false

/-- The cancellation-polling backoff wait (api-client.ts lines 300-314):
`startWait = Date.now(); while (Date.now() - startWait < delay) { if
(cancelled) return …; await sleep(100); }`.  `τ` is the current virtual
time; returns the exit time and whether the loop returned the cancelled
result from inside the wait.  Fuel-indexed; a fuel `f` with
`delay ≤ 100 * f` is enough to never hit the artificial `0` case. -/
def pollWaitAux (cancelAt : Option ℚ) (startWait delay : ℚ) : ℚ → ℕ → ℚ × Bool
  | τ, 0 => (τ, false)
  | τ, Nat.succ fuel =>
    if τ - startWait < delay then
      if cancelledAt cancelAt τ then (τ, true)
      else pollWaitAux cancelAt startWait delay (τ + 100) fuel
    else (τ, false)

/-- Fuel passed to the polling wait: `delay ≤ 30000 < 100 * 301`. -/
def pollFuel : ℕ := 301

/-- Events recorded while `makeApiRequest` runs: one rate-limiter
admission check, the start of each transport attempt (tagged with the
`retryCount` at that attempt), and each backoff wait with its delay. -/
inductive ReqEvent where
  | consultLimiter
  | attemptStart (retryCount : ℕ)
  | backoffWait (delay : ℚ)
deriving DecidableEq

/-- Result of a `makeApiRequest` run: the returned `ApiResponse`, the
virtual time at which the call returns, and the event trace. -/
structure RunResult where
  response : ApiResponse
  finishTime : ℚ
  trace : List ReqEvent
deriving DecidableEq

/-- The terminal failure built after the loop exits (lines 341-349). -/
def finalFailure (lastStatusCode : ℕ) (lastError : String) (retryCount : ℕ) : ApiResponse :=
  { success := false, data := none,
    error := some (getErrorWithRecovery lastStatusCode lastError),
    statusCode := lastStatusCode, retryCount := retryCount, cancelled := false }

/-- The terminal result returned on an observed cancellation
(lines 239-246 and 304-311). -/
def cancelledResponse (reason : String) (retryCount : ℕ) : ApiResponse :=
  { success := false, data := none, error := some reason,
    statusCode := 0, retryCount := retryCount, cancelled := true }

/-- The success result (lines 281-288); `data` is `response.json`. -/
def successResponse (body : String) (status : ℕ) (retryCount : ℕ) : ApiResponse :=
  { success := true, data := some body, error := none,
    statusCode := status, retryCount := retryCount, cancelled := false }

/-- The immediate failure returned when the rate limiter denies
admission (lines 218-229). -/
def rateLimitedResponse (waitTime : ℚ) : ApiResponse :=
  { success := false, data := none, error := some (rateLimitedMessage waitTime),
    statusCode := 429, retryCount := 0, cancelled := false }

/-- The retry loop of `makeApiRequest` (lines 235-339), over a virtual
clock `τ`.  Fuel-indexed; fuel `maxRetries + 1` always outlasts the loop
condition `retryCount <= maxRetries` since `retryCount` grows by one per
iteration, so the `0` case coincides with the loop condition failing. -/
def retryLoop (transport : ℕ → AttemptOutcome) (jitter : ℕ → ℚ)
    (cancelAt : Option ℚ) (cancelReason : String) (cfg : ApiRequestConfig) :
    ℕ → ℚ → ℕ → String → ℕ → RunResult
  | 0, τ, retryCount, lastError, lastStatusCode =>
    { response := finalFailure lastStatusCode lastError retryCount,
      finishTime := τ, trace := [] }
  | Nat.succ fuel, τ, retryCount, lastError, lastStatusCode =>
    if cfg.maxRetries < retryCount then
      { response := finalFailure lastStatusCode lastError retryCount,
        finishTime := τ, trace := [] }
    else if cancelledAt cancelAt τ then
      { response := cancelledResponse cancelReason retryCount,
        finishTime := τ, trace := [] }
    else
      match transport retryCount with
      | AttemptOutcome.httpResponse status body errMsg dur =>
        let τ1 := τ + dur
        if 200 ≤ status ∧ status < 300 then
          { response := successResponse body status retryCount,
            finishTime := τ1, trace := [ReqEvent.attemptStart retryCount] }
        else if isRetryableError status ∧ retryCount < cfg.maxRetries then
          let delay := calculateBackoffDelay retryCount cfg.retryDelayMs (jitter retryCount)
          let pw := pollWaitAux cancelAt τ1 delay τ1 pollFuel
          if pw.2 then
            { response := cancelledResponse cancelReason retryCount,
              finishTime := pw.1,
              trace := [ReqEvent.attemptStart retryCount, ReqEvent.backoffWait delay] }
          else
            let rest := retryLoop transport jitter cancelAt cancelReason cfg
              fuel pw.1 (retryCount + 1) errMsg status
            { rest with trace :=
                ReqEvent.attemptStart retryCount :: ReqEvent.backoffWait delay :: rest.trace }
        else
          { response := finalFailure status errMsg retryCount,
            finishTime := τ1, trace := [ReqEvent.attemptStart retryCount] }
      | AttemptOutcome.timedOut =>
        let τ1 := τ + cfg.timeout
        if retryCount < cfg.maxRetries then
          let delay := calculateBackoffDelay retryCount cfg.retryDelayMs (jitter retryCount)
          let τ2 := τ1 + delay
          let rest := retryLoop transport jitter cancelAt cancelReason cfg
            fuel τ2 (retryCount + 1) "Request timeout" lastStatusCode
          { rest with trace :=
              ReqEvent.attemptStart retryCount :: ReqEvent.backoffWait delay :: rest.trace }
        else
          { response := finalFailure lastStatusCode "Request timeout" retryCount,
            finishTime := τ1, trace := [ReqEvent.attemptStart retryCount] }

/-- `makeApiRequest` (lines 203-350): one rate-limiter admission check
at entry — on denial, the immediate `429` failure carrying the computed
wait time; otherwise the retry loop starting at
`retryCount = 0, lastError = "", lastStatusCode = 0`.  (`recordRequest`
only mutates the process-wide limiter, which the per-call result never
reads back, so its effect is not threaded here.) -/
def makeApiRequest (limiter : RateLimiterState) (now : ℚ)
    (transport : ℕ → AttemptOutcome) (jitter : ℕ → ℚ)
    (cancelAt : Option ℚ) (cancelReason : String) (cfg : ApiRequestConfig) : RunResult :=
  let adm := limiter.canMakeRequest now
  if adm.1 = false then
    let waitTime := adm.2.getWaitTime now
    { response := rateLimitedResponse waitTime,
      finishTime := now, trace := [ReqEvent.consultLimiter] }
  else
    let r := retryLoop transport jitter cancelAt cancelReason cfg
      (cfg.maxRetries + 1) now 0 "" 0
    { r with trace := ReqEvent.consultLimiter :: r.trace }

/-- Number of rate-limiter admission checks in a trace. -/
def countConsults (trace : List ReqEvent) : ℕ :=
  trace.countP (fun e => e matches ReqEvent.consultLimiter)

/-- Number of transport attempts in a trace. -/
def countAttempts (trace : List ReqEvent) : ℕ :=
  trace.countP (fun e => e matches ReqEvent.attemptStart _)

/-- The backoff delays of a trace, in order. -/
def backoffDelays (trace : List ReqEvent) : List ℚ :=
  trace.filterMap (fun e =>
    match e with
    | ReqEvent.backoffWait d => some d
    | _ => none)

/-! ## Cancellation token (`src/api-client.ts`, class `CancellationToken`)

Callbacks are identified by numbers; their behaviour (normal return or
thrown exception) is an oracle `run : ℕ → Except String Unit`.  Each
operation returns the new token state together with the list of
callbacks it invoked, in invocation order. -/

/-- The mutable fields of a `CancellationToken`. -/
structure TokenState where
  isCancelled : Bool
  reason : String
  callbacks : List ℕ
deriving DecidableEq

/-- `new CancellationToken()`. -/
def TokenState.init : TokenState :=
  { isCancelled := false, reason := "", callbacks := [] }

/-- The `for (const callback of this._callbacks) { try { callback(); }
catch { } }` loop of `cancel`: every callback is invoked, and a thrown
exception is swallowed so the iteration continues. -/
def invokeCallbacks (run : ℕ → Except String Unit) : List ℕ → List ℕ
  | [] => []
  | c :: rest =>
    match run c with
    | Except.ok _ => c :: invokeCallbacks run rest
    | Except.error _ => c :: invokeCallbacks run rest

/-- `cancel(reason)` (lines 51-62): a no-op if already cancelled,
otherwise flip the flag, fix the reason and invoke every registered
callback. -/
def TokenState.cancel (run : ℕ → Except String Unit) (s : TokenState) (reason : String) :
    TokenState × List ℕ :=
  if s.isCancelled then (s, [])
  else
    ({ isCancelled := true, reason := reason, callbacks := s.callbacks },
      invokeCallbacks run s.callbacks)

/-- `onCancel(callback)` (lines 64-70): invoke immediately if already
cancelled, else queue. -/
def TokenState.onCancel (run : ℕ → Except String Unit) (s : TokenState) (cb : ℕ) :
    TokenState × List ℕ :=
  if s.isCancelled then (s, invokeCallbacks run [cb])
  else ({ s with callbacks := s.callbacks ++ [cb] }, [])

/-- An observable operation on one token. -/
inductive TokenOp where
  | cancelOp (reason : String)
  | onCancelOp (cb : ℕ)
deriving DecidableEq

/-- Run a sequence of token operations, accumulating the invocation log. -/
def runTokenOps (run : ℕ → Except String Unit) :
    TokenState → List TokenOp → TokenState × List ℕ
  | s, [] => (s, [])
  | s, op :: rest =>
    let step :=
      match op with
      | TokenOp.cancelOp r => s.cancel run r
      | TokenOp.onCancelOp c => s.onCancel run c
    let final := runTokenOps run step.1 rest
    (final.1, step.2 ++ final.2)

/-! ## Read-through cache (`src/cache.ts`, class `Cache`)

`entries` is the JS `Map` modelled as an insertion-ordered association
list with unique keys (`Map.set` on a present key updates in place,
`Map.delete` removes, `Map.size` is the list length); `accessOrder` is
the LRU array, least-recently-used first. -/

/-- A cache entry: value, store time and the version stamped at store
time. -/
structure CacheEntry (T : Type) where
  data : T
  timestamp : ℚ
  version : ℕ
deriving DecidableEq

/-- The mutable fields of a `Cache<T>` together with its configuration
(`debounceMs` plays no role in `get`/`set`/`invalidateAll`). -/
structure CacheState (T : Type) where
  entries : List (String × CacheEntry T)
  accessOrder : List String
  ttlMs : ℚ
  maxEntries : ℕ
  globalVersion : ℕ
deriving DecidableEq

/-- `Map.delete(key)` on an association list with unique keys. -/
def eraseEntry {T : Type} (l : List (String × CacheEntry T)) (k : String) :
    List (String × CacheEntry T) :=
  l.filter (fun p => p.1 ≠ k)

/-- `Map.set(key, e)`: update in place when present, else append. -/
def putEntry {T : Type} (l : List (String × CacheEntry T)) (k : String) (e : CacheEntry T) :
    List (String × CacheEntry T) :=
  if l.any (fun p => p.1 == k) then
    l.map (fun p => if p.1 == k then (k, e) else p)
  else l ++ [(k, e)]

/-- `removeFromAccessOrder(key)`: `indexOf` + `splice(index, 1)` removes
the first occurrence. -/
def removeFromAccessOrder (order : List String) (k : String) : List String :=
  order.erase k

/-- `get(key)` (lines 50-78) at virtual time `now`: `null` on a missing
entry; an entry past its TTL or with a stale version is deleted and
`null` returned; a valid entry is moved to the most-recent end of the
access order and its value returned. -/
def Cache.get {T : Type} (s : CacheState T) (now : ℚ) (key : String) :
    Option T × CacheState T :=
  match s.entries.lookup key with
  | none => (none, s)
  | some entry =>
    let deleted : CacheState T :=
      { s with
        entries := eraseEntry s.entries key,
        accessOrder := removeFromAccessOrder s.accessOrder key }
    if s.ttlMs < now - entry.timestamp then (none, deleted)
    else if entry.version ≠ s.globalVersion then (none, deleted)
    else
      (some entry.data,
        { s with accessOrder := removeFromAccessOrder s.accessOrder key ++ [key] })

/-- The `while (size >= maxEntries && accessOrder.length > 0)` eviction
loop of `set` (lines 85-91): shift the least-recently-used key off the
access order and delete its entry, until under capacity. -/
def evictLoop {T : Type} (maxEntries : ℕ) :
    List (String × CacheEntry T) → List String →
    List (String × CacheEntry T) × List String
  | entries, [] => (entries, [])
  | entries, k :: rest =>
    if maxEntries ≤ entries.length then
      evictLoop maxEntries (eraseEntry entries k) rest
    else (entries, k :: rest)

/-- `set(key, data)` (lines 83-102) at virtual time `now`: evict while
at capacity, store the entry stamped with `now` and the current global
version, and move the key to the most-recent end of the access order. -/
def Cache.set {T : Type} (s : CacheState T) (now : ℚ) (key : String) (data : T) :
    CacheState T :=
  let ev := evictLoop s.maxEntries s.entries s.accessOrder
  { s with
    entries := putEntry ev.1 key { data := data, timestamp := now, version := s.globalVersion },
    accessOrder := removeFromAccessOrder ev.2 key ++ [key] }

/-- `invalidateAll()` (lines 122-125): bump the global version only. -/
def Cache.invalidateAll {T : Type} (s : CacheState T) : CacheState T :=
  { s with globalVersion := s.globalVersion + 1 }

/-! ## Helper lemmas -/

theorem lookup_cons_self {T : Type} (a : String) (b : CacheEntry T)
    (l : List (String × CacheEntry T)) :
    List.lookup a ((a, b) :: l) = some b := by
  simp [List.lookup]

theorem lookup_cons_ne {T : Type} (a k : String) (b : CacheEntry T)
    (l : List (String × CacheEntry T)) (h : k ≠ a) :
    List.lookup k ((a, b) :: l) = List.lookup k l := by
  have hb : (k == a) = false := by simp [h]
  simp [List.lookup, hb]

theorem eraseEntry_cons_self {T : Type} (a : String) (b : CacheEntry T)
    (l : List (String × CacheEntry T)) :
    eraseEntry ((a, b) :: l) a = eraseEntry l a := by
  simp [eraseEntry, List.filter_cons]

theorem eraseEntry_cons_ne {T : Type} (a k : String) (b : CacheEntry T)
    (l : List (String × CacheEntry T)) (h : a ≠ k) :
    eraseEntry ((a, b) :: l) k = (a, b) :: eraseEntry l k := by
  simp [eraseEntry, List.filter_cons, h]

theorem lookup_eraseEntry_self {T : Type} (l : List (String × CacheEntry T))
    (k : String) : (eraseEntry l k).lookup k = none := by
  induction l with
  | nil => rfl
  | cons p rest ih =>
    obtain ⟨a, b⟩ := p
    by_cases hak : a = k
    · subst hak
      rw [eraseEntry_cons_self]
      exact ih
    · rw [eraseEntry_cons_ne a k b rest hak, lookup_cons_ne a k b _ (Ne.symm hak)]
      exact ih

theorem lookup_eraseEntry_ne {T : Type} (l : List (String × CacheEntry T))
    (k k' : String) (h : k' ≠ k) :
    (eraseEntry l k).lookup k' = l.lookup k' := by
  induction l with
  | nil => rfl
  | cons p rest ih =>
    obtain ⟨a, b⟩ := p
    by_cases hak : a = k
    · subst hak
      rw [eraseEntry_cons_self, lookup_cons_ne a k' b rest h]
      exact ih
    · rw [eraseEntry_cons_ne a k b rest hak]
      by_cases hka : k' = a
      · subst hka
        rw [lookup_cons_self, lookup_cons_self]
      · rw [lookup_cons_ne a k' b _ hka, lookup_cons_ne a k' b rest hka]
        exact ih

theorem lookup_none_of_not_mem {T : Type} (l : List (String × CacheEntry T))
    (k : String) (h : k ∉ l.map Prod.fst) : l.lookup k = none := by
  induction l with
  | nil => rfl
  | cons p rest ih =>
    obtain ⟨a, b⟩ := p
    simp only [List.map_cons, List.mem_cons, not_or] at h
    rw [lookup_cons_ne a k b rest h.1]
    exact ih h.2

theorem mem_of_lookup_some {T : Type} (l : List (String × CacheEntry T))
    (k : String) (e : CacheEntry T) (h : l.lookup k = some e) :
    k ∈ l.map Prod.fst := by
  by_contra hmem
  rw [lookup_none_of_not_mem l k hmem] at h
  exact Option.noConfusion h

theorem lookup_append {T : Type} (l1 l2 : List (String × CacheEntry T))
    (k : String) : (l1 ++ l2).lookup k = (l1.lookup k).or (l2.lookup k) := by
  induction l1 with
  | nil => simp [List.lookup]
  | cons p rest ih =>
    obtain ⟨a, b⟩ := p
    by_cases hak : k = a
    · subst hak
      rw [List.cons_append, lookup_cons_self, lookup_cons_self]
      rfl
    · rw [List.cons_append, lookup_cons_ne a k b _ hak, lookup_cons_ne a k b rest hak]
      exact ih

theorem length_eraseEntry_of_mem {T : Type} (l : List (String × CacheEntry T))
    (k : String) (hmem : k ∈ l.map Prod.fst) (hnd : (l.map Prod.fst).Nodup) :
    (eraseEntry l k).length + 1 = l.length := by
  induction l with
  | nil => simp at hmem
  | cons p rest ih =>
    obtain ⟨a, b⟩ := p
    simp only [List.map_cons, List.nodup_cons] at hnd
    by_cases hak : a = k
    · subst hak
      have heq : eraseEntry rest a = rest := by
        simp only [eraseEntry]
        rw [List.filter_eq_self]
        intro p hp
        have : ¬ p.1 = a := fun hpa =>
          hnd.1 (hpa ▸ List.mem_map_of_mem Prod.fst hp)
        simpa using this
      rw [eraseEntry_cons_self, heq]
      simp
    · simp only [List.map_cons, List.mem_cons] at hmem
      rcases hmem with h1 | h1
      · exact absurd h1.symm hak
      · rw [eraseEntry_cons_ne a k b rest hak]
        simpa using ih h1 hnd.2

theorem keys_eraseEntry_subset {T : Type} (l : List (String × CacheEntry T))
    (k k' : String) (h : k' ∈ (eraseEntry l k).map Prod.fst) :
    k' ∈ l.map Prod.fst := by
  simp only [eraseEntry] at h
  obtain ⟨p, hp, hpk⟩ := List.mem_map.mp h
  exact hpk ▸ List.mem_map_of_mem Prod.fst (List.mem_of_mem_filter hp)

theorem putEntry_not_mem {T : Type} (l : List (String × CacheEntry T))
    (k : String) (e : CacheEntry T) (h : k ∉ l.map Prod.fst) :
    putEntry l k e = l ++ [(k, e)] := by
  simp only [putEntry]
  rw [if_neg]
  simp only [List.any_eq_true, beq_iff_eq, not_exists]
  intro p hp
  exact h (hp.2 ▸ List.mem_map_of_mem Prod.fst hp.1)

theorem cache_get_missing {T : Type} (s : CacheState T) (now : ℚ) (k : String)
    (hl : s.entries.lookup k = none) : Cache.get s now k = (none, s) := by
  simp [Cache.get, hl]

theorem cache_get_expired {T : Type} (s : CacheState T) (now : ℚ) (k : String)
    (entry : CacheEntry T) (hl : s.entries.lookup k = some entry)
    (hexp : s.ttlMs < now - entry.timestamp) :
    Cache.get s now k =
      (none, { s with entries := eraseEntry s.entries k,
                      accessOrder := removeFromAccessOrder s.accessOrder k }) := by
  simp [Cache.get, hl, hexp]

theorem cache_get_stale {T : Type} (s : CacheState T) (now : ℚ) (k : String)
    (entry : CacheEntry T) (hl : s.entries.lookup k = some entry)
    (hexp : ¬ s.ttlMs < now - entry.timestamp)
    (hver : entry.version ≠ s.globalVersion) :
    Cache.get s now k =
      (none, { s with entries := eraseEntry s.entries k,
                      accessOrder := removeFromAccessOrder s.accessOrder k }) := by
  simp [Cache.get, hl, hexp, hver]

theorem cache_get_hit {T : Type} (s : CacheState T) (now : ℚ) (k : String)
    (entry : CacheEntry T) (hl : s.entries.lookup k = some entry)
    (hexp : ¬ s.ttlMs < now - entry.timestamp)
    (hver : entry.version = s.globalVersion) :
    Cache.get s now k =
      (some entry.data,
        { s with accessOrder := removeFromAccessOrder s.accessOrder k ++ [k] }) := by
  simp [Cache.get, hl, hexp, hver]

theorem evictLoop_at_capacity {T : Type} (entries : List (String × CacheEntry T))
    (kLRU : String) (rest : List String) (m : ℕ)
    (hlen : entries.length = m) (_hm : 1 ≤ m)
    (hmem : kLRU ∈ entries.map Prod.fst)
    (hnd : (entries.map Prod.fst).Nodup) :
    evictLoop m entries (kLRU :: rest) = (eraseEntry entries kLRU, rest) := by
  have hlen2 := length_eraseEntry_of_mem entries kLRU hmem hnd
  unfold evictLoop
  rw [if_pos (by omega)]
  cases rest with
  | nil => rfl
  | cons k2 rest2 =>
    unfold evictLoop
    rw [if_neg (by omega)]

/-- The `try { callback(); } catch { }` loop invokes every callback,
whether or not it throws. -/
theorem invokeCallbacks_eq (run : ℕ → Except String Unit) (l : List ℕ) :
    invokeCallbacks run l = l := by
  induction l with
  | nil => rfl
  | cons c rest ih =>
    unfold invokeCallbacks
    cases run c <;> simp [ih]

/-- Once a token is cancelled, no further operation changes its state. -/
theorem runTokenOps_cancelled_fix (run : ℕ → Except String Unit)
    (ops : List TokenOp) (s : TokenState) (h : s.isCancelled = true) :
    (runTokenOps run s ops).1 = s := by
  induction ops with
  | nil => rfl
  | cons op rest ih =>
    cases op with
    | cancelOp r =>
      simp [runTokenOps, TokenState.cancel, h, ih]
    | onCancelOp c =>
      simp [runTokenOps, TokenState.onCancel, h, ih]

/-- Once a token is cancelled, every later registration fires
immediately: the invocation log of any operation suffix counts each
callback as often as it is registered there. -/
theorem runTokenOps_cancelled_count (run : ℕ → Except String Unit)
    (c : ℕ) (ops : List TokenOp) (s : TokenState) (h : s.isCancelled = true) :
    ((runTokenOps run s ops).2.count c) = ops.count (TokenOp.onCancelOp c) := by
  induction ops generalizing s with
  | nil => simp [runTokenOps]
  | cons op rest ih =>
    cases op with
    | cancelOp r =>
      rw [List.count_cons]
      simp [runTokenOps, TokenState.cancel, h, ih s h]
    | onCancelOp c2 =>
      rw [List.count_cons]
      simp only [runTokenOps, TokenState.onCancel, h, if_true]
      rw [List.count_append, ih s h, invokeCallbacks_eq]
      rcases eq_or_ne c2 c with rfl | hne
      · simp
        omega
      · simp [List.count_singleton, hne, TokenOp.onCancelOp.injEq]

/-- For a not-yet-cancelled token whose operation sequence contains a
`cancel`, the invocation log counts each callback once per pending
registration plus once per registration in the sequence. -/
theorem runTokenOps_pending_count (run : ℕ → Except String Unit)
    (c : ℕ) (ops : List TokenOp) (s : TokenState) (h : s.isCancelled = false)
    (hcancel : ∃ r, TokenOp.cancelOp r ∈ ops) :
    ((runTokenOps run s ops).2.count c)
      = s.callbacks.count c + ops.count (TokenOp.onCancelOp c) := by
  induction ops generalizing s with
  | nil => obtain ⟨r, hr⟩ := hcancel; simp at hr
  | cons op rest ih =>
    cases op with
    | cancelOp r =>
      simp only [runTokenOps, TokenState.cancel, h, Bool.false_eq_true, if_false]
      rw [List.count_append, invokeCallbacks_eq,
        runTokenOps_cancelled_count run c rest _ rfl]
      simp
    | onCancelOp c2 =>
      obtain ⟨r, hr⟩ := hcancel
      have hr2 : TokenOp.cancelOp r ∈ rest := by
        rcases List.mem_cons.mp hr with h1 | h1
        · exact absurd h1 (by simp)
        · exact h1
      simp only [runTokenOps, TokenState.onCancel, h, Bool.false_eq_true, if_false]
      rw [List.nil_append, ih _ rfl ⟨r, hr2⟩, List.count_append]
      rcases eq_or_ne c2 c with rfl | hne
      · simp
        omega
      · simp [List.count_cons, List.count_singleton, hne,
          TokenOp.onCancelOp.injEq]

/-- Without a cancellation instant the polling wait never reports a
cancellation. -/
theorem pollWaitAux_none_snd (start delay : ℚ) :
    ∀ (fuel : ℕ) (τ : ℚ), (pollWaitAux none start delay τ fuel).2 = false := by
  intro fuel
  induction fuel with
  | zero => intro τ; rfl
  | succ f ih =>
    intro τ
    simp only [pollWaitAux, cancelledAt]
    split
    · exact ih (τ + 100)
    · rfl

/-- The retry loop itself never consults the rate limiter: its trace
contains no admission-check event. -/
theorem retryLoop_no_consult (transport : ℕ → AttemptOutcome) (jitter : ℕ → ℚ)
    (cancelAt : Option ℚ) (reason : String) (cfg : ApiRequestConfig) :
    ∀ (fuel : ℕ) (τ : ℚ) (rc : ℕ) (le : String) (ls : ℕ),
      countConsults (retryLoop transport jitter cancelAt reason cfg
        fuel τ rc le ls).trace = 0 := by
  intro fuel
  induction fuel with
  | zero => intro τ rc le ls; simp [retryLoop, countConsults]
  | succ f ih =>
    intro τ rc le ls
    by_cases h1 : cfg.maxRetries < rc
    · simp [retryLoop, h1, countConsults]
    by_cases h2 : cancelledAt cancelAt τ = true
    · simp [retryLoop, h1, h2, countConsults]
    cases htr : transport rc with
    | httpResponse status body errMsg dur =>
      by_cases h3 : 200 ≤ status ∧ status < 300
      · simp [retryLoop, h1, h2, htr, h3, countConsults, List.countP_cons]
      by_cases h4 : isRetryableError status = true ∧ rc < cfg.maxRetries
      · by_cases h5 : (pollWaitAux cancelAt (τ + dur)
            (calculateBackoffDelay rc cfg.retryDelayMs (jitter rc)) (τ + dur)
            pollFuel).2 = true
        · simp [retryLoop, h1, h2, htr, h3, h4, h5, countConsults,
            List.countP_cons]
        · simpa [retryLoop, h1, h2, htr, h3, h4, h5, countConsults,
            List.countP_cons] using ih _ _ _ _
      · simp [retryLoop, h1, h2, htr, h3, h4, countConsults, List.countP_cons]
    | timedOut =>
      by_cases h3 : rc < cfg.maxRetries
      · simpa [retryLoop, h1, h2, htr, h3, countConsults,
          List.countP_cons] using ih _ _ _ _
      · simp [retryLoop, h1, h2, htr, h3, countConsults, List.countP_cons]

/-- Symbolic execution of the retry loop for a transport that fails
retryably on every attempt before `K` and succeeds at attempt `K`, with
no cancellation: the loop succeeds with `retryCount = K`, makes one
attempt per index and waits exactly the computed backoff delays. -/
theorem retryLoop_fails_then_succeeds (transport : ℕ → AttemptOutcome)
    (jitter : ℕ → ℚ) (reason : String) (cfg : ApiRequestConfig) (K : ℕ)
    (fs : ℕ → ℕ) (fb fm : ℕ → String) (fd : ℕ → ℚ)
    (sOK : ℕ) (bodyOK mOK : String) (dOK : ℚ)
    (hK : K ≤ cfg.maxRetries)
    (hfail : ∀ i, i < K →
      transport i = AttemptOutcome.httpResponse (fs i) (fb i) (fm i) (fd i))
    (hfret : ∀ i, i < K → isRetryableError (fs i) = true)
    (hfnot2xx : ∀ i, i < K → ¬ (200 ≤ fs i ∧ fs i < 300))
    (hsucc : transport K = AttemptOutcome.httpResponse sOK bodyOK mOK dOK)
    (h2xx : 200 ≤ sOK ∧ sOK < 300) :
    ∀ (n rc : ℕ), rc + n = K →
      ∀ (fuel : ℕ), cfg.maxRetries + 1 - rc ≤ fuel →
      ∀ (τ : ℚ) (le : String) (ls : ℕ),
      (retryLoop transport jitter none reason cfg fuel τ rc le ls).response
        = successResponse bodyOK sOK K ∧
      countAttempts (retryLoop transport jitter none reason cfg
        fuel τ rc le ls).trace = n + 1 ∧
      backoffDelays (retryLoop transport jitter none reason cfg
        fuel τ rc le ls).trace
        = (List.range' rc n).map
            (fun i => calculateBackoffDelay i cfg.retryDelayMs (jitter i)) := by
  intro n
  induction n with
  | zero =>
    intro rc hrc fuel hfuel τ le ls
    have hrcK : rc = K := by omega
    subst hrcK
    cases fuel with
    | zero => omega
    | succ f =>
      simp only [retryLoop]
      rw [if_neg (by omega), if_neg (by simp [cancelledAt])]
      simp only [hsucc]
      rw [if_pos h2xx]
      refine ⟨rfl, ?_, ?_⟩
      · simp [countAttempts, List.countP, List.countP.go]
      · simp [backoffDelays]
  | succ n ih =>
    intro rc hrc fuel hfuel τ le ls
    have hrcK : rc < K := by omega
    cases fuel with
    | zero => omega
    | succ f =>
      simp only [retryLoop]
      rw [if_neg (by omega), if_neg (by simp [cancelledAt])]
      simp only [hfail rc hrcK]
      rw [if_neg (hfnot2xx rc hrcK),
        if_pos (And.intro (hfret rc hrcK) (by omega)),
        if_neg (by simp [pollWaitAux_none_snd])]
      have hrest := ih (rc + 1) (by omega) f (by omega)
        ((pollWaitAux none (τ + fd rc)
          (calculateBackoffDelay rc cfg.retryDelayMs (jitter rc)) (τ + fd rc)
          pollFuel).1) (fm rc) (fs rc)
      refine ⟨hrest.1, ?_, ?_⟩
      · simp only [countAttempts, List.countP_cons] at *
        simp only [hrest.2.1]
        simp
      · simp only [backoffDelays, List.filterMap_cons] at *
        rw [hrest.2.2]
        rw [List.range'_succ]
        simp

/-- In the polling backoff wait with a cancellation instant `t`, if the
entry time is at most one slice past `t` and the fuel covers the delay,
then the wait exits at most one 100ms slice after `t`, and it either
reports the cancellation itself or has waited out the full delay. -/
theorem pollWaitAux_cancel_bound (t start delay : ℚ) :
    ∀ (fuel : ℕ) (τ : ℚ), τ ≤ t + 100 → delay ≤ (τ - start) + 100 * fuel →
      (pollWaitAux (some t) start delay τ fuel).1 ≤ t + 100 ∧
      ((pollWaitAux (some t) start delay τ fuel).2 = true ∨
        delay ≤ (pollWaitAux (some t) start delay τ fuel).1 - start) := by
  intro fuel
  induction fuel with
  | zero =>
    intro τ h1 h2
    simp only [pollWaitAux]
    refine ⟨h1, Or.inr ?_⟩
    push_cast at h2
    linarith
  | succ f ih =>
    intro τ h1 h2
    simp only [pollWaitAux, cancelledAt]
    by_cases hlt : τ - start < delay
    · rw [if_pos hlt]
      by_cases hc : t ≤ τ
      · rw [if_pos (decide_eq_true hc)]
        exact ⟨h1, Or.inl rfl⟩
      · rw [if_neg (by simp [hc])]
        apply ih (τ + 100)
        · push_neg at hc
          linarith
        · push_cast at h2 ⊢
          linarith
    · rw [if_neg hlt]
      exact ⟨h1, Or.inr (by linarith)⟩

/-- If the first attempt returns a retryable status instantly and the
token is cancelled at instant `t` inside the first backoff wait, the
retry loop returns a cancelled result no later than one polling slice
after `t`. -/
theorem retryLoop_cancel_during_backoff (transport : ℕ → AttemptOutcome)
    (jitter : ℕ → ℚ) (reason : String) (cfg : ApiRequestConfig)
    (t now : ℚ) (s : ℕ) (b m : String)
    (hmax : 1 ≤ cfg.maxRetries)
    (ht0 : transport 0 = AttemptOutcome.httpResponse s b m 0)
    (hretry : isRetryableError s = true)
    (hn2xx : ¬ (200 ≤ s ∧ s < 300))
    (hta : now ≤ t)
    (htb : t - now < calculateBackoffDelay 0 cfg.retryDelayMs (jitter 0)) :
    ∀ (fuel : ℕ), cfg.maxRetries + 1 ≤ fuel →
      (retryLoop transport jitter (some t) reason cfg
        fuel now 0 "" 0).response.cancelled = true ∧
      (retryLoop transport jitter (some t) reason cfg
        fuel now 0 "" 0).finishTime ≤ t + 100 := by
  intro fuel hfuel
  cases fuel with
  | zero => omega
  | succ f =>
    simp only [retryLoop]
    rw [if_neg (by omega)]
    by_cases hc0 : t ≤ now
    · rw [if_pos (by simp [cancelledAt, hc0])]
      constructor
      · rfl
      · show now ≤ t + 100
        linarith
    · rw [if_neg (by simp [cancelledAt, hc0])]
      simp only [ht0]
      rw [if_neg hn2xx, if_pos (And.intro hretry (by omega))]
      have hpw := pollWaitAux_cancel_bound t (now + 0)
        (calculateBackoffDelay 0 cfg.retryDelayMs (jitter 0)) pollFuel (now + 0)
        (by push_neg at hc0; linarith)
        (by
          have hd : calculateBackoffDelay 0 cfg.retryDelayMs (jitter 0) ≤ 30000 :=
            min_le_right _ _
          simp only [pollFuel]
          push_cast
          linarith)
      by_cases hcanc : (pollWaitAux (some t) (now + 0)
          (calculateBackoffDelay 0 cfg.retryDelayMs (jitter 0)) (now + 0)
          pollFuel).2 = true
      · rw [if_pos hcanc]
        exact ⟨rfl, hpw.1⟩
      · rw [if_neg hcanc]
        have hdone : calculateBackoffDelay 0 cfg.retryDelayMs (jitter 0)
            ≤ (pollWaitAux (some t) (now + 0)
                (calculateBackoffDelay 0 cfg.retryDelayMs (jitter 0)) (now + 0)
                pollFuel).1 - (now + 0) :=
          (hpw.2).resolve_left hcanc
        cases f with
        | zero => omega
        | succ f2 =>
          simp only [retryLoop]
          rw [if_neg (by omega)]
          rw [if_pos (by
            simp only [cancelledAt, decide_eq_true_eq]
            linarith)]
          exact ⟨rfl, hpw.1⟩

/-- When the limiter admits, `makeApiRequest` is the retry loop plus a
single leading admission-check event. -/
theorem makeApiRequest_admitted (limiter : RateLimiterState) (now : ℚ)
    (transport : ℕ → AttemptOutcome) (jitter : ℕ → ℚ) (cancelAt : Option ℚ)
    (reason : String) (cfg : ApiRequestConfig)
    (hadm : (limiter.canMakeRequest now).1 = true) :
    (makeApiRequest limiter now transport jitter cancelAt reason cfg).trace
      = ReqEvent.consultLimiter :: (retryLoop transport jitter cancelAt reason
          cfg (cfg.maxRetries + 1) now 0 "" 0).trace ∧
    (makeApiRequest limiter now transport jitter cancelAt reason cfg).response
      = (retryLoop transport jitter cancelAt reason
          cfg (cfg.maxRetries + 1) now 0 "" 0).response ∧
    (makeApiRequest limiter now transport jitter cancelAt reason cfg).finishTime
      = (retryLoop transport jitter cancelAt reason
          cfg (cfg.maxRetries + 1) now 0 "" 0).finishTime := by
  refine ⟨?_, ?_, ?_⟩ <;> simp [makeApiRequest, hadm]

/-! ## Claim theorems -/

/-- Claim C4: after the first `cancel(r)` on a not-yet-cancelled token,
`isCancelled` is `true` and `reason` is `r` in every later state, no
matter what operations follow, and a later `cancel(r2)` changes nothing
and fires no observer. -/
theorem claim4_cancel_permanent_idempotent (run : ℕ → Except String Unit)
    (s : TokenState) (r r2 : String) (ops : List TokenOp)
    (h : s.isCancelled = false) :
    (runTokenOps run ((s.cancel run r).1) ops).1.isCancelled = true ∧
    (runTokenOps run ((s.cancel run r).1) ops).1.reason = r ∧
    ((s.cancel run r).1).cancel run r2 = ((s.cancel run r).1, []) := by
  have hs1 : (s.cancel run r).1
      = { isCancelled := true, reason := r, callbacks := s.callbacks } := by
    simp [TokenState.cancel, h]
  rw [hs1, runTokenOps_cancelled_fix run ops _ rfl]
  refine ⟨rfl, rfl, ?_⟩
  simp [TokenState.cancel]

/-- Witness for C4 at a concrete token and trace. -/
theorem claim4_witness :
    (runTokenOps (fun _ => Except.ok ())
        ((TokenState.init.cancel (fun _ => Except.ok ()) "stop").1)
        [TokenOp.cancelOp "again", TokenOp.onCancelOp 7]).1.isCancelled = true ∧
    (runTokenOps (fun _ => Except.ok ())
        ((TokenState.init.cancel (fun _ => Except.ok ()) "stop").1)
        [TokenOp.cancelOp "again", TokenOp.onCancelOp 7]).1.reason = "stop" ∧
    ((TokenState.init.cancel (fun _ => Except.ok ()) "stop").1).cancel
        (fun _ => Except.ok ()) "later"
      = ((TokenState.init.cancel (fun _ => Except.ok ()) "stop").1, []) :=
  claim4_cancel_permanent_idempotent (fun _ => Except.ok ()) TokenState.init
    "stop" "later" [TokenOp.cancelOp "again", TokenOp.onCancelOp 7] rfl

/-- Claim C9: starting from a fresh token, if the operation sequence
contains a `cancel`, every callback registration leads to exactly one
invocation (fired during the first cancel when registered before it,
immediately at registration when after), for every callback behaviour
`run` — so a throwing callback does not suppress the others, which is
also witnessed by `invokeCallbacks` invoking the whole list regardless
of `run`. -/
theorem claim9_callbacks_fire_exactly_once (run : ℕ → Except String Unit)
    (ops : List TokenOp) (c : ℕ) (r : String)
    (hcancel : TokenOp.cancelOp r ∈ ops) :
    ((runTokenOps run TokenState.init ops).2.count c)
      = ops.count (TokenOp.onCancelOp c) ∧
    invokeCallbacks run (runTokenOps run TokenState.init ops).1.callbacks
      = (runTokenOps run TokenState.init ops).1.callbacks := by
  refine ⟨?_, invokeCallbacks_eq run _⟩
  rw [runTokenOps_pending_count run c ops TokenState.init rfl ⟨r, hcancel⟩]
  simp [TokenState.init]

/-- Witness for C9: callbacks 1 and 2 registered before the cancel (1
throws), callback 3 after; each is invoked exactly once. -/
theorem claim9_witness :
    ((runTokenOps (fun k => if k = 1 then Except.error "boom" else Except.ok ())
        TokenState.init
        [TokenOp.onCancelOp 1, TokenOp.onCancelOp 2, TokenOp.cancelOp "stop",
          TokenOp.onCancelOp 3]).2.count 2)
      = [TokenOp.onCancelOp 1, TokenOp.onCancelOp 2, TokenOp.cancelOp "stop",
          TokenOp.onCancelOp 3].count (TokenOp.onCancelOp 2) :=
  (claim9_callbacks_fire_exactly_once
    (fun k => if k = 1 then Except.error "boom" else Except.ok ())
    [TokenOp.onCancelOp 1, TokenOp.onCancelOp 2, TokenOp.cancelOp "stop",
      TokenOp.onCancelOp 3] 2 "stop" (by simp)).1

/-- Transport returning a retryable 500 on the first attempt, then 200
(used by the C1 and C2 scenarios). -/
def oneRetryTransport : ℕ → AttemptOutcome := fun i =>
  if i = 0 then AttemptOutcome.httpResponse 500 "" "Internal Server Error" 0
  else AttemptOutcome.httpResponse 200 "ok" "" 0

/-- Counterexample to claim C2 as stated: the claim covers both
retryable-status backoffs and timeout backoffs, but the timeout path
sleeps the whole delay without polling.  With per-attempt timeout 200ms,
base delay 1000ms (zero jitter) and cancellation at `t = 250` — during
the first timeout backoff — the call does return `cancelled == true`,
but only at time 1200 (after the full 1000ms backoff), far beyond one
100ms polling slice after `t`. -/
theorem claim2_counterexample :
    (makeApiRequest ⟨[], 10, 60000⟩ 0 (fun _ => AttemptOutcome.timedOut)
        (fun _ => 0) (some 250) "cancelled" ⟨200, 3, 1000⟩).response.cancelled
      = true ∧
    (makeApiRequest ⟨[], 10, 60000⟩ 0 (fun _ => AttemptOutcome.timedOut)
        (fun _ => 0) (some 250) "cancelled" ⟨200, 3, 1000⟩).finishTime = 1200 ∧
    ¬ ((makeApiRequest ⟨[], 10, 60000⟩ 0 (fun _ => AttemptOutcome.timedOut)
        (fun _ => 0) (some 250) "cancelled" ⟨200, 3, 1000⟩).finishTime
          ≤ 250 + 100) := by
  have hadm : ((⟨[], 10, 60000⟩ : RateLimiterState).canMakeRequest 0).1 = true := by
    simp [RateLimiterState.canMakeRequest, RateLimiterState.cleanup]
  have h := makeApiRequest_admitted ⟨[], 10, 60000⟩ 0
    (fun _ => AttemptOutcome.timedOut) (fun _ => 0) (some 250) "cancelled"
    ⟨200, 3, 1000⟩ hadm
  have hrun : retryLoop (fun _ => AttemptOutcome.timedOut) (fun _ => 0)
      (some 250) "cancelled" ⟨200, 3, 1000⟩
      ((⟨200, 3, 1000⟩ : ApiRequestConfig).maxRetries + 1) 0 0 "" 0
      = { response := cancelledResponse "cancelled" 1, finishTime := 1200,
          trace := [ReqEvent.attemptStart 0, ReqEvent.backoffWait 1000] } := by
    rw [show ((⟨200, 3, 1000⟩ : ApiRequestConfig).maxRetries + 1)
      = Nat.succ 3 from rfl]
    simp only [retryLoop]
    norm_num [cancelledAt, calculateBackoffDelay]
  rw [h.2.1, h.2.2, hrun]
  norm_num [cancelledResponse]

/-- Claim C2 (amended): for the backoff wait that follows a retryable
HTTP status, a cancellation at instant `t` inside the wait produces a
terminal `cancelled == true` result no later than one 100ms polling
slice after `t`; the timeout-retry backoff, by contrast, is an
uninterruptible sleep of the whole delay (see the counterexample). -/
theorem claim2_cancel_prompt_in_status_backoff (limiter : RateLimiterState)
    (now : ℚ) (transport : ℕ → AttemptOutcome) (jitter : ℕ → ℚ)
    (reason : String) (cfg : ApiRequestConfig) (t : ℚ) (s : ℕ) (b m : String)
    (hadm : (limiter.canMakeRequest now).1 = true)
    (hmax : 1 ≤ cfg.maxRetries)
    (ht0 : transport 0 = AttemptOutcome.httpResponse s b m 0)
    (hretry : isRetryableError s = true)
    (hn2xx : ¬ (200 ≤ s ∧ s < 300))
    (hta : now ≤ t)
    (htb : t - now < calculateBackoffDelay 0 cfg.retryDelayMs (jitter 0)) :
    (makeApiRequest limiter now transport jitter (some t) reason
      cfg).response.cancelled = true ∧
    (makeApiRequest limiter now transport jitter (some t) reason
      cfg).finishTime ≤ t + 100 := by
  have h := makeApiRequest_admitted limiter now transport jitter (some t)
    reason cfg hadm
  have hloop := retryLoop_cancel_during_backoff transport jitter reason cfg
    t now s b m hmax ht0 hretry hn2xx hta htb (cfg.maxRetries + 1) le_rfl
  rw [h.2.1, h.2.2]
  exact hloop

/-- Witness for C2 (amended): 500 on the first attempt, cancellation at
`t = 250` inside the first (1000ms, zero-jitter) backoff: the run is
cancelled and finishes within one polling slice of `t`. -/
theorem claim2_witness :
    (makeApiRequest ⟨[], 10, 60000⟩ 0 oneRetryTransport (fun _ => 0)
      (some 250) "cancelled" ⟨30000, 3, 1000⟩).response.cancelled = true ∧
    (makeApiRequest ⟨[], 10, 60000⟩ 0 oneRetryTransport (fun _ => 0)
      (some 250) "cancelled" ⟨30000, 3, 1000⟩).finishTime ≤ 250 + 100 :=
  claim2_cancel_prompt_in_status_backoff ⟨[], 10, 60000⟩ 0 oneRetryTransport
    (fun _ => 0) "cancelled" ⟨30000, 3, 1000⟩ 250 500 "" "Internal Server Error"
    (by simp [RateLimiterState.canMakeRequest, RateLimiterState.cleanup])
    (by norm_num)
    (by simp [oneRetryTransport])
    (by decide)
    (by norm_num)
    (by norm_num)
    (by norm_num [calculateBackoffDelay])

/-- Counterexample to claim C1 as stated: in a run with one retry the
engine performs two transport attempts but consults the rate limiter
only once, so the limiter is not consulted before every attempt. -/
theorem claim1_counterexample :
    countConsults (makeApiRequest ⟨[], 10, 60000⟩ 0 oneRetryTransport
        (fun _ => 0) none "" ⟨30000, 3, 1000⟩).trace = 1 ∧
    countAttempts (makeApiRequest ⟨[], 10, 60000⟩ 0 oneRetryTransport
        (fun _ => 0) none "" ⟨30000, 3, 1000⟩).trace = 2 ∧
    ¬ (countAttempts (makeApiRequest ⟨[], 10, 60000⟩ 0 oneRetryTransport
          (fun _ => 0) none "" ⟨30000, 3, 1000⟩).trace
        ≤ countConsults (makeApiRequest ⟨[], 10, 60000⟩ 0 oneRetryTransport
          (fun _ => 0) none "" ⟨30000, 3, 1000⟩).trace) := by
  have hadm : ((⟨[], 10, 60000⟩ : RateLimiterState).canMakeRequest 0).1 = true := by
    simp [RateLimiterState.canMakeRequest, RateLimiterState.cleanup]
  have htr := (makeApiRequest_admitted ⟨[], 10, 60000⟩ 0 oneRetryTransport
    (fun _ => 0) none "" ⟨30000, 3, 1000⟩ hadm).1
  have hscen := retryLoop_fails_then_succeeds oneRetryTransport (fun _ => 0) ""
    ⟨30000, 3, 1000⟩ 1 (fun _ => 500) (fun _ => "")
    (fun _ => "Internal Server Error") (fun _ => 0) 200 "ok" "" 0
    (by norm_num)
    (by intro i hi; have h0 : i = 0 := by omega
        subst h0; simp [oneRetryTransport])
    (by intro i hi; show isRetryableError 500 = true; decide)
    (by intro i hi; norm_num)
    (by simp [oneRetryTransport])
    (by norm_num)
    1 0 rfl ((⟨30000, 3, 1000⟩ : ApiRequestConfig).maxRetries + 1) (by norm_num)
    0 "" 0
  have hnoc := retryLoop_no_consult oneRetryTransport (fun _ => 0) none ""
    ⟨30000, 3, 1000⟩ ((⟨30000, 3, 1000⟩ : ApiRequestConfig).maxRetries + 1)
    0 0 "" 0
  refine ⟨?_, ?_, ?_⟩
  · rw [htr]
    simp only [countConsults, List.countP_cons] at hnoc ⊢
    simp [hnoc]
  · rw [htr]
    simp only [countAttempts, List.countP_cons] at hscen ⊢
    simp [hscen.2.1]
  · rw [htr]
    simp only [countConsults, countAttempts, List.countP_cons] at hnoc hscen ⊢
    simp [hnoc, hscen.2.1]

/-- Claim C1 (amended): the engine consults the rate limiter exactly
once per invocation, before the first attempt (retries do not
re-consult); whenever the limiter denies admission the engine returns
immediately a failure with `success == false`, a message carrying the
computed wait time, `statusCode 429`, and performs no attempt. -/
theorem claim1_limiter_consulted_once_at_entry (limiter : RateLimiterState)
    (now : ℚ) (transport : ℕ → AttemptOutcome) (jitter : ℕ → ℚ)
    (cancelAt : Option ℚ) (reason : String) (cfg : ApiRequestConfig) :
    countConsults (makeApiRequest limiter now transport jitter cancelAt
      reason cfg).trace = 1 ∧
    ((limiter.canMakeRequest now).1 = false →
      (makeApiRequest limiter now transport jitter cancelAt reason cfg).response
        = rateLimitedResponse ((limiter.canMakeRequest now).2.getWaitTime now) ∧
      (makeApiRequest limiter now transport jitter cancelAt reason cfg).response.statusCode
        = 429 ∧
      (makeApiRequest limiter now transport jitter cancelAt reason cfg).response.success
        = false ∧
      (makeApiRequest limiter now transport jitter cancelAt reason cfg).response.error
        = some (rateLimitedMessage ((limiter.canMakeRequest now).2.getWaitTime now)) ∧
      countAttempts (makeApiRequest limiter now transport jitter cancelAt
        reason cfg).trace = 0) := by
  by_cases hadm : (limiter.canMakeRequest now).1 = false
  · constructor
    · simp [makeApiRequest, hadm, countConsults, List.countP, List.countP.go]
    · intro _
      refine ⟨?_, ?_, ?_, ?_, ?_⟩ <;>
        simp [makeApiRequest, hadm, rateLimitedResponse, countAttempts,
          List.countP, List.countP.go]
  · have hadm2 : (limiter.canMakeRequest now).1 = true := by
      simpa using hadm
    have h := makeApiRequest_admitted limiter now transport jitter cancelAt
      reason cfg hadm2
    have hnoc := retryLoop_no_consult transport jitter cancelAt reason cfg
      (cfg.maxRetries + 1) now 0 "" 0
    constructor
    · rw [h.1]
      simp only [countConsults, List.countP_cons] at hnoc ⊢
      simp [hnoc]
    · intro hc
      rw [hadm2] at hc
      exact absurd hc (by simp)

/-- Witness for C1 (amended), denial side: a saturated limiter makes the
engine return the 429 backpressure result with the computed wait time
and no attempt. -/
theorem claim1_witness :
    (makeApiRequest ⟨[0, 0, 0], 3, 60000⟩ 1 oneRetryTransport (fun _ => 0)
        none "" ⟨30000, 3, 1000⟩).response
      = rateLimitedResponse 59999 ∧
    countAttempts (makeApiRequest ⟨[0, 0, 0], 3, 60000⟩ 1 oneRetryTransport
        (fun _ => 0) none "" ⟨30000, 3, 1000⟩).trace = 0 := by
  have hden : ((⟨[0, 0, 0], 3, 60000⟩ : RateLimiterState).canMakeRequest 1).1
      = false := by
    simp [RateLimiterState.canMakeRequest, RateLimiterState.cleanup]
  have hwait : ((⟨[0, 0, 0], 3, 60000⟩ : RateLimiterState).canMakeRequest 1).2.getWaitTime 1
      = 59999 := by
    norm_num [RateLimiterState.canMakeRequest, RateLimiterState.getWaitTime,
      RateLimiterState.cleanup, List.filter]
  have h := (claim1_limiter_consulted_once_at_entry ⟨[0, 0, 0], 3, 60000⟩ 1
    oneRetryTransport (fun _ => 0) none "" ⟨30000, 3, 1000⟩).2 hden
  exact ⟨hwait ▸ h.1, h.2.2.2.2⟩

/-- Transport for claim C5: HTTP 500 on the first three attempts, then
HTTP 200. -/
def threeFailTransport : ℕ → AttemptOutcome := fun i =>
  if i < 3 then AttemptOutcome.httpResponse 500 "" "Internal Server Error" 0
  else AttemptOutcome.httpResponse 200 "ok" "" 0

/-- Claim C5: with the default budget (`maxRetries = 3`,
`retryDelayMs = 1000`), a transport returning HTTP 500 three times then
HTTP 200 yields `success == true` with `retryCount == 3`, and the three
backoff delays are `min(1000 * 2^k + jitter_k, 30000)` for
`k = 0, 1, 2`, each at most 30000 and non-decreasing, for any jitter
draws in `[0, 1000)`. -/
theorem claim5_retry_backoff_schedule (jitter : ℕ → ℚ)
    (hj : ∀ k, 0 ≤ jitter k ∧ jitter k < 1000)
    (limiter : RateLimiterState) (now : ℚ)
    (hadm : (limiter.canMakeRequest now).1 = true) :
    (makeApiRequest limiter now threeFailTransport jitter none ""
      ⟨30000, 3, 1000⟩).response.success = true ∧
    (makeApiRequest limiter now threeFailTransport jitter none ""
      ⟨30000, 3, 1000⟩).response.retryCount = 3 ∧
    backoffDelays (makeApiRequest limiter now threeFailTransport jitter none ""
        ⟨30000, 3, 1000⟩).trace
      = [min (1000 * 2 ^ 0 + jitter 0) 30000,
          min (1000 * 2 ^ 1 + jitter 1) 30000,
          min (1000 * 2 ^ 2 + jitter 2) 30000] ∧
    (∀ d ∈ backoffDelays (makeApiRequest limiter now threeFailTransport jitter
        none "" ⟨30000, 3, 1000⟩).trace, d ≤ 30000) ∧
    List.Chain' (fun a b => a ≤ b)
      (backoffDelays (makeApiRequest limiter now threeFailTransport jitter
        none "" ⟨30000, 3, 1000⟩).trace) := by
  have h := makeApiRequest_admitted limiter now threeFailTransport jitter none
    "" ⟨30000, 3, 1000⟩ hadm
  have hscen := retryLoop_fails_then_succeeds threeFailTransport jitter ""
    ⟨30000, 3, 1000⟩ 3 (fun _ => 500) (fun _ => "")
    (fun _ => "Internal Server Error") (fun _ => 0) 200 "ok" "" 0
    (by norm_num)
    (by intro i hi; simp [threeFailTransport, hi])
    (by intro i hi; show isRetryableError 500 = true; decide)
    (by intro i hi; norm_num)
    (by simp [threeFailTransport])
    (by norm_num)
    3 0 rfl ((⟨30000, 3, 1000⟩ : ApiRequestConfig).maxRetries + 1) (by norm_num)
    now "" 0
  have hdel : backoffDelays (makeApiRequest limiter now threeFailTransport
      jitter none "" ⟨30000, 3, 1000⟩).trace
      = [min (1000 * 2 ^ 0 + jitter 0) 30000,
          min (1000 * 2 ^ 1 + jitter 1) 30000,
          min (1000 * 2 ^ 2 + jitter 2) 30000] := by
    rw [h.1]
    simp only [backoffDelays, List.filterMap_cons] at hscen ⊢
    rw [hscen.2.2]
    simp [List.range', calculateBackoffDelay]
  refine ⟨?_, ?_, hdel, ?_, ?_⟩
  · rw [h.2.1, hscen.1]; rfl
  · rw [h.2.1, hscen.1]; rfl
  · rw [hdel]
    intro d hd
    simp only [List.mem_cons, List.not_mem_nil, or_false] at hd
    rcases hd with rfl | rfl | rfl <;> exact min_le_right _ _
  · rw [hdel]
    have h0 := hj 0
    have h1 := hj 1
    have h2 := hj 2
    refine List.chain'_cons.mpr ⟨?_, List.chain'_cons.mpr ⟨?_, ?_⟩⟩
    · exact min_le_min (by nlinarith [h0.2, h1.1]) le_rfl
    · exact min_le_min (by nlinarith [h1.2, h2.1]) le_rfl
    · simp

/-- Witness for C5 at zero jitter and a fresh limiter. -/
theorem claim5_witness :
    (makeApiRequest ⟨[], 10, 60000⟩ 0 threeFailTransport (fun _ => 0) none ""
      ⟨30000, 3, 1000⟩).response.success = true ∧
    (makeApiRequest ⟨[], 10, 60000⟩ 0 threeFailTransport (fun _ => 0) none ""
      ⟨30000, 3, 1000⟩).response.retryCount = 3 ∧
    backoffDelays (makeApiRequest ⟨[], 10, 60000⟩ 0 threeFailTransport
        (fun _ => 0) none "" ⟨30000, 3, 1000⟩).trace
      = [1000, 2000, 4000] := by
  have h := claim5_retry_backoff_schedule (fun _ => 0)
    (by intro k; norm_num) ⟨[], 10, 60000⟩ 0
    (by simp [RateLimiterState.canMakeRequest, RateLimiterState.cleanup])
  refine ⟨h.1, h.2.1, ?_⟩
  rw [h.2.2.1]
  norm_num

/-- Claim C6: when the rate limiter admits and the first attempt yields
a non-2xx status that is not retryable (not 429 and not 5xx, e.g. 401),
`makeApiRequest` terminates at once: `success == false`, the status and
enriched message are reported, `retryCount` stays `0`, and exactly one
transport attempt happens. -/
theorem claim6_non_retryable_single_attempt (limiter : RateLimiterState)
    (now : ℚ) (transport : ℕ → AttemptOutcome) (jitter : ℕ → ℚ)
    (reason : String) (cfg : ApiRequestConfig) (s : ℕ) (body errMsg : String)
    (dur : ℚ)
    (hadok : (limiter.canMakeRequest now).1 = true)
    (ht : transport 0 = AttemptOutcome.httpResponse s body errMsg dur)
    (hs2xx : ¬ (200 ≤ s ∧ s < 300))
    (hsretry : isRetryableError s = false) :
    (makeApiRequest limiter now transport jitter none reason cfg).response
      = finalFailure s errMsg 0 ∧
    (makeApiRequest limiter now transport jitter none reason cfg).response.success
      = false ∧
    (makeApiRequest limiter now transport jitter none reason cfg).response.statusCode
      = s ∧
    (makeApiRequest limiter now transport jitter none reason cfg).response.retryCount
      = 0 ∧
    countAttempts (makeApiRequest limiter now transport jitter none reason cfg).trace
      = 1 := by
  have hrun : makeApiRequest limiter now transport jitter none reason cfg
      = { response := finalFailure s errMsg 0, finishTime := now + dur,
          trace := [ReqEvent.consultLimiter, ReqEvent.attemptStart 0] } := by
    have hretry : ¬ (isRetryableError s = true ∧ 0 < cfg.maxRetries) := by
      simp [hsretry]
    simp only [makeApiRequest, hadok]
    rw [if_neg (by simp)]
    have hsucc : cfg.maxRetries + 1 = Nat.succ cfg.maxRetries := rfl
    rw [hsucc]
    simp only [retryLoop, Nat.not_lt_zero, if_false, cancelledAt, ht]
    rw [if_neg hs2xx]
    rw [if_neg hretry]
    simp
  rw [hrun]
  refine ⟨rfl, rfl, rfl, rfl, ?_⟩
  simp [countAttempts, List.countP, List.countP.go]

/-- Witness for C6: an HTTP 401 response produces exactly one attempt
and an authentication-failure message. -/
theorem claim6_witness :
    (makeApiRequest ⟨[], 10, 60000⟩ 0
        (fun _ => AttemptOutcome.httpResponse 401 "" "Unauthorized" 0)
        (fun _ => 0) none "" {}).response.statusCode = 401 ∧
    (makeApiRequest ⟨[], 10, 60000⟩ 0
        (fun _ => AttemptOutcome.httpResponse 401 "" "Unauthorized" 0)
        (fun _ => 0) none "" {}).response.retryCount = 0 ∧
    countAttempts (makeApiRequest ⟨[], 10, 60000⟩ 0
        (fun _ => AttemptOutcome.httpResponse 401 "" "Unauthorized" 0)
        (fun _ => 0) none "" {}).trace = 1 := by
  have h := claim6_non_retryable_single_attempt ⟨[], 10, 60000⟩ 0
    (fun _ => AttemptOutcome.httpResponse 401 "" "Unauthorized" 0)
    (fun _ => 0) "" {} 401 "" "Unauthorized" 0
    (by simp [RateLimiterState.canMakeRequest, RateLimiterState.cleanup])
    rfl (by norm_num) (by decide)
  exact ⟨h.2.2.1, h.2.2.2.1, h.2.2.2.2⟩

/-- Claim C10: `setRateLimitConfig(m, w)` replaces the singleton's
fields wholesale, so the recorded-request history is discarded: for any
prior state and any `m ≥ 1`, the next admission check succeeds and the
reported wait time is `0`. -/
theorem claim10_reconfigure_discards_history (s : RateLimiterState)
    (m : ℕ) (w now : ℚ) (hm : 1 ≤ m) :
    ((setRateLimitConfig s m w).canMakeRequest now).1 = true ∧
    (setRateLimitConfig s m w).getWaitTime now = 0 := by
  constructor
  · simp [setRateLimitConfig, RateLimiterState.canMakeRequest,
      RateLimiterState.cleanup]
    omega
  · simp [setRateLimitConfig, RateLimiterState.getWaitTime,
      RateLimiterState.cleanup]

/-- Witness for C10 at a concrete saturated limiter. -/
theorem claim10_witness :
    ((setRateLimitConfig ⟨[0, 0, 0], 3, 60000⟩ 10 60000).canMakeRequest 5).1 = true ∧
    (setRateLimitConfig ⟨[0, 0, 0], 3, 60000⟩ 10 60000).getWaitTime 5 = 0 :=
  claim10_reconfigure_discards_history ⟨[0, 0, 0], 3, 60000⟩ 10 60000 5 (by norm_num)

/-- Claim C7: for a cache at capacity (`capacity` distinct keys, access
order consistent with the entry map, least-recently-used first),
inserting a fresh key `kNew` evicts exactly the least-recently-used key
`k1`: `k1` is deleted, `kNew` is stored, and every other key is
untouched.  If instead `k1` (holding a valid entry) is first touched via
`get`, then the overflow insert evicts the now-least-recently-used `k2`
while `k1` survives. -/
theorem claim7_lru_eviction {T : Type} (s : CacheState T) (now : ℚ)
    (k1 k2 kNew : String) (rest : List String) (d : T) (e1 : CacheEntry T)
    (horder : s.accessOrder = k1 :: k2 :: rest)
    (hperm : s.accessOrder.Perm (s.entries.map Prod.fst))
    (hnd : (s.entries.map Prod.fst).Nodup)
    (hlen : s.entries.length = s.maxEntries)
    (hnew : kNew ∉ s.entries.map Prod.fst)
    (he1 : s.entries.lookup k1 = some e1)
    (hfresh : ¬ s.ttlMs < now - e1.timestamp)
    (hver : e1.version = s.globalVersion) :
    ((Cache.set s now kNew d).entries.lookup k1 = none ∧
      (Cache.set s now kNew d).entries.lookup kNew
        = some { data := d, timestamp := now, version := s.globalVersion } ∧
      ∀ k', k' ≠ k1 → k' ≠ kNew →
        (Cache.set s now kNew d).entries.lookup k' = s.entries.lookup k') ∧
    ((Cache.set (Cache.get s now k1).2 now kNew d).entries.lookup k1 = some e1 ∧
      (Cache.set (Cache.get s now k1).2 now kNew d).entries.lookup k2 = none) := by
  have hk1mem : k1 ∈ s.entries.map Prod.fst :=
    hperm.subset (by rw [horder]; exact List.mem_cons_self k1 _)
  have hk2mem : k2 ∈ s.entries.map Prod.fst :=
    hperm.subset (by rw [horder]; exact List.mem_cons_of_mem k1 (List.mem_cons_self k2 _))
  have hmax : 1 ≤ s.maxEntries := by
    rcases List.mem_map.mp hk1mem with ⟨p, hp, -⟩
    have := List.length_pos.mpr (List.ne_nil_of_mem hp)
    omega
  have hordernd : s.accessOrder.Nodup := hperm.nodup_iff.mpr hnd
  have hk1k2 : k1 ≠ k2 := by
    rw [horder] at hordernd
    intro h
    exact (List.nodup_cons.mp hordernd).1 (h ▸ List.mem_cons_self k2 rest)
  have hNk1 : kNew ≠ k1 := fun h => hnew (h ▸ hk1mem)
  have hNk2 : kNew ≠ k2 := fun h => hnew (h ▸ hk2mem)
  have hnewE : kNew ∉ (eraseEntry s.entries k1).map Prod.fst :=
    fun h => hnew (keys_eraseEntry_subset s.entries k1 kNew h)
  have hents : (Cache.set s now kNew d).entries
      = eraseEntry s.entries k1
          ++ [(kNew, { data := d, timestamp := now, version := s.globalVersion })] := by
    simp only [Cache.set]
    rw [horder, evictLoop_at_capacity s.entries k1 (k2 :: rest) s.maxEntries hlen
      hmax hk1mem hnd]
    exact putEntry_not_mem _ _ _ hnewE
  constructor
  · refine ⟨?_, ?_, ?_⟩
    · rw [hents, lookup_append, lookup_eraseEntry_self,
        lookup_cons_ne kNew k1 _ [] (Ne.symm hNk1)]
      rfl
    · rw [hents, lookup_append, lookup_none_of_not_mem _ kNew hnewE,
        lookup_cons_self]
      rfl
    · intro k' hk1' hkN'
      rw [hents, lookup_append, lookup_eraseEntry_ne s.entries k1 k' hk1',
        lookup_cons_ne kNew k' _ [] hkN']
      cases s.entries.lookup k' <;> rfl
  · have hget : (Cache.get s now k1).2
        = { s with accessOrder := removeFromAccessOrder s.accessOrder k1 ++ [k1] } := by
      rw [cache_get_hit s now k1 e1 he1 hfresh hver]
    have haccess : removeFromAccessOrder s.accessOrder k1 ++ [k1]
        = k2 :: (rest ++ [k1]) := by
      rw [horder]
      simp [removeFromAccessOrder]
    have hents2 : (Cache.set (Cache.get s now k1).2 now kNew d).entries
        = eraseEntry s.entries k2
            ++ [(kNew, { data := d, timestamp := now, version := s.globalVersion })] := by
      rw [hget]
      simp only [Cache.set]
      rw [haccess, evictLoop_at_capacity s.entries k2 (rest ++ [k1]) s.maxEntries hlen
        hmax hk2mem hnd]
      exact putEntry_not_mem _ _ _
        (fun h => hnew (keys_eraseEntry_subset s.entries k2 kNew h))
    constructor
    · rw [hents2, lookup_append, lookup_eraseEntry_ne s.entries k2 k1 hk1k2, he1]
      rfl
    · rw [hents2, lookup_append, lookup_eraseEntry_self,
        lookup_cons_ne kNew k2 _ [] (Ne.symm hNk2)]
      rfl

/-- Witness for C7: a two-entry cache at capacity 2; touching key `a`
then inserting `c` evicts `b` while `a` survives. -/
theorem claim7_witness :
    (Cache.set (Cache.get (CacheState.mk
        [("a", (⟨1, 0, 0⟩ : CacheEntry ℕ)), ("b", ⟨2, 0, 0⟩)]
        ["a", "b"] 60000 2 0) 10 "a").2 10 "c" 3).entries.lookup "a"
      = some ⟨1, 0, 0⟩ ∧
    (Cache.set (Cache.get (CacheState.mk
        [("a", (⟨1, 0, 0⟩ : CacheEntry ℕ)), ("b", ⟨2, 0, 0⟩)]
        ["a", "b"] 60000 2 0) 10 "a").2 10 "c" 3).entries.lookup "b"
      = none :=
  (claim7_lru_eviction (CacheState.mk
      [("a", (⟨1, 0, 0⟩ : CacheEntry ℕ)), ("b", ⟨2, 0, 0⟩)]
      ["a", "b"] 60000 2 0) 10 "a" "b" "c" [] 3 ⟨1, 0, 0⟩
    rfl (List.Perm.refl _) (by simp) rfl (by simp)
    (by rw [lookup_cons_self]) (by norm_num) rfl).2

/-- Claim C8: `canMakeRequest` prunes the timestamps outside the
trailing window and admits iff the remaining count is below capacity;
`getWaitTime` is `0` under capacity and otherwise the time until the
oldest retained timestamp exits the window; concretely, with capacity 3
and window 60000ms, after 3 admissions at `t = 0` a check at `t = 1`
denies (with wait time 59999) and a check at `t = 60001` admits. -/
theorem claim8_rate_limiter_window (s : RateLimiterState) (now oldest : ℚ)
    (rest : List ℚ) :
    ((s.canMakeRequest now).1 = true ↔
      (s.requests.filter (fun t => decide (now - s.windowMs < t))).length
        < s.maxRequests) ∧
    ((s.canMakeRequest now).2.requests
      = s.requests.filter (fun t => decide (now - s.windowMs < t))) ∧
    ((s.cleanup now).requests.length < s.maxRequests → s.getWaitTime now = 0) ∧
    ((s.cleanup now).requests = oldest :: rest →
      ¬ (s.cleanup now).requests.length < s.maxRequests →
      s.getWaitTime now = oldest + s.windowMs - now) ∧
    ((RateLimiterState.canMakeRequest ⟨[0, 0, 0], 3, 60000⟩ 1).1 = false) ∧
    (RateLimiterState.getWaitTime ⟨[0, 0, 0], 3, 60000⟩ 1 = 59999) ∧
    ((RateLimiterState.canMakeRequest ⟨[0, 0, 0], 3, 60000⟩ 60001).1 = true) := by
  refine ⟨?_, rfl, ?_, ?_, ?_, ?_, ?_⟩
  · simp [RateLimiterState.canMakeRequest, RateLimiterState.cleanup]
  · intro h
    simp only [RateLimiterState.getWaitTime]
    rw [if_pos]
    exact h
  · intro hhead h
    simp only [RateLimiterState.getWaitTime]
    rw [if_neg]
    · have h2 : (s.cleanup now).requests.head? = some oldest := by
        rw [hhead]; rfl
      rw [h2]
      simp [RateLimiterState.cleanup]
    · simpa using h
  · simp [RateLimiterState.canMakeRequest, RateLimiterState.cleanup]
  · norm_num [RateLimiterState.getWaitTime, RateLimiterState.cleanup, List.filter]
  · norm_num [RateLimiterState.canMakeRequest, RateLimiterState.cleanup, List.filter]

/-- Witness for C8 instantiating the hypothesis-bearing conjuncts: a
saturated limiter's wait time is `oldest + windowMs - now`. -/
theorem claim8_witness :
    RateLimiterState.getWaitTime ⟨[40, 50, 60], 3, 60000⟩ 100 = 59940 := by
  have h := (claim8_rate_limiter_window ⟨[40, 50, 60], 3, 60000⟩ 100 40
    [50, 60]).2.2.2.1
  rw [h]
  · norm_num
  · norm_num [RateLimiterState.cleanup, List.filter]
  · norm_num [RateLimiterState.cleanup, List.filter]

/-- Claim C3: `get(k)` returns the stored value exactly when an entry
for `k` exists, is within its TTL (`now - timestamp ≤ ttlMs`) and
carries the current global version; in every other case it returns
`null`, deleting an expired or stale-versioned entry on that access; and
after `invalidateAll()` (for any state whose entries carry versions at
most the current one, which storing guarantees) a `get(k)` returns
`null` regardless of the TTL. -/
theorem claim3_cache_get_valid_iff {T : Type} (s : CacheState T) (now : ℚ)
    (k : String) (v : T) :
    ((Cache.get s now k).1 = some v ↔
      ∃ e, s.entries.lookup k = some e ∧ e.data = v ∧
        now - e.timestamp ≤ s.ttlMs ∧ e.version = s.globalVersion) ∧
    (∀ e, s.entries.lookup k = some e →
      (s.ttlMs < now - e.timestamp ∨ e.version ≠ s.globalVersion) →
      (Cache.get s now k).1 = none ∧
        (Cache.get s now k).2.entries.lookup k = none) ∧
    ((∀ e, s.entries.lookup k = some e → e.version ≤ s.globalVersion) →
      (Cache.get (Cache.invalidateAll s) now k).1 = none) := by
  refine ⟨?_, ?_, ?_⟩
  · cases hl : s.entries.lookup k with
    | none =>
      rw [cache_get_missing s now k hl]
      constructor
      · intro hc; exact absurd hc (by simp)
      · rintro ⟨e, he, -⟩
        exact Option.noConfusion he
    | some entry =>
      by_cases hexp : s.ttlMs < now - entry.timestamp
      · rw [cache_get_expired s now k entry hl hexp]
        constructor
        · intro hc; exact absurd hc (by simp)
        · rintro ⟨e, he, _, hfresh, _⟩
          injection he with he
          subst he
          exact absurd hexp (not_lt.mpr hfresh)
      · by_cases hver : entry.version = s.globalVersion
        · rw [cache_get_hit s now k entry hl hexp hver]
          constructor
          · intro hc
            injection hc with hc
            exact ⟨entry, rfl, hc, not_lt.mp hexp, hver⟩
          · rintro ⟨e, he, hd, -, -⟩
            injection he with he
            subst he
            simpa using hd
        · rw [cache_get_stale s now k entry hl hexp hver]
          constructor
          · intro hc; exact absurd hc (by simp)
          · rintro ⟨e, he, _, _, hv⟩
            injection he with he
            subst he
            exact absurd hv hver
  · intro e he hbad
    by_cases hexp : s.ttlMs < now - e.timestamp
    · rw [cache_get_expired s now k e he hexp]
      exact ⟨rfl, lookup_eraseEntry_self s.entries k⟩
    · have hver : e.version ≠ s.globalVersion := hbad.resolve_left hexp
      rw [cache_get_stale s now k e he hexp hver]
      exact ⟨rfl, lookup_eraseEntry_self s.entries k⟩
  · intro hv
    cases hl : s.entries.lookup k with
    | none =>
      rw [cache_get_missing (Cache.invalidateAll s) now k hl]
    | some entry =>
      have hver : entry.version ≠ (Cache.invalidateAll s).globalVersion := by
        have := hv entry hl
        simp only [Cache.invalidateAll]
        omega
      by_cases hexp : (Cache.invalidateAll s).ttlMs < now - entry.timestamp
      · rw [cache_get_expired (Cache.invalidateAll s) now k entry hl hexp]
      · rw [cache_get_stale (Cache.invalidateAll s) now k entry hl hexp hver]

/-- Witness for C3: a fresh entry is returned; an expired entry is
deleted; `invalidateAll` hides a still-fresh entry. -/
theorem claim3_witness :
    ((Cache.get (CacheState.mk [("a", ⟨5, 0, 0⟩)] ["a"] 60000 50 0) 70000 "a").1
        = (none : Option ℕ) ∧
      ((Cache.get (CacheState.mk [("a", ⟨5, 0, 0⟩)] ["a"] 60000 50 0) 70000 "a").2.entries.lookup "a"
        = none)) ∧
    (Cache.get (Cache.invalidateAll (CacheState.mk [("a", (⟨5, 0, 0⟩ : CacheEntry ℕ))] ["a"] 60000 50 0)) 10 "a").1
      = none := by
  constructor
  · exact (claim3_cache_get_valid_iff
      (CacheState.mk [("a", ⟨5, 0, 0⟩)] ["a"] 60000 50 0) 70000 "a" 5).2.1
      ⟨5, 0, 0⟩ (by rw [lookup_cons_self]) (by norm_num)
  · exact (claim3_cache_get_valid_iff
      (CacheState.mk [("a", (⟨5, 0, 0⟩ : CacheEntry ℕ))] ["a"] 60000 50 0) 10 "a" 5).2.2
      (by
        intro e he
        rw [lookup_cons_self] at he
        injection he with he
        subst he
        simp)
